import Mathlib

/-!
# A shallow embedding of `SimpleVector` (src/simple-vector/simple_vector.h)

The C++ container `SimpleVector<Type>` owns a raw buffer of `capacity_`
default-constructed slots through the collaborator `ArrayPtr<Type>`, of which
the first `size_` slots are the live elements.  We embed a vector state as a
record of the buffer contents (a `List`), the live-element count `size` and the
slot count `capacity`.  C++ `Type{}` (the element type's default value) is
`default` of an `Inhabited` instance; `size_t` arithmetic is modelled on `Nat`
(no operation of the claims brings a count anywhere near `2^64`, so unsigned
wrap-around never occurs on the modelled inputs).

`ArrayPtr` itself (`array_ptr.h`) is not part of the sources.  Modelled from
the spec: the Raw Buffer Owner contract of §6 — "construct-with-size allocates
zero-or-more default-valued slots, raw pointer access, no-throw swap,
exactly-once release on destruction, move-only ownership transfer".  Hence an
allocation of `n` slots is `List.replicate n default`, and moving a buffer out
leaves the source buffer empty (`[]`, the null pointer).

`std::move` of individual elements is modelled as a copy that leaves the source
slot's value in place: moved-from slots live only in the slack region
`[size, capacity)`, which no claim observes, so the choice is immaterial.
-/

/-- State of a `SimpleVector<Type>`: the owned buffer (all allocated slots, in
order), the live-element count `size_` and the slot count `capacity_`. -/
structure SimpleVector (α : Type) where
  storage : List α
  size : Nat
  capacity : Nat
deriving Repr, DecidableEq

/-- The tag type `ReserveProxyObj`, a pure value carrying the capacity to
reserve (`value` member, read through `GetValue`). -/
structure ReserveProxyObj where
  value : Nat
deriving Repr, DecidableEq

namespace SimpleVector

variable {α : Type}

/-- `GetSize`: returns `size_`. -/
def GetSize (v : SimpleVector α) : Nat := v.size

/-- `GetCapacity`: returns `capacity_`. -/
def GetCapacity (v : SimpleVector α) : Nat := v.capacity

/-- `IsEmpty`: `size_ == 0`. -/
def IsEmpty (v : SimpleVector α) : Bool := v.size == 0

/-- Unchecked `operator[]`: reads slot `index` of the buffer.  The C++ call is
a precondition-carrying raw read; out of the allocated range we return
`default` (the C++ behaviour there is unspecified and no claim exercises it). -/
def get [Inhabited α] (v : SimpleVector α) (index : Nat) : α :=
  v.storage.getD index default

/-- The live element sequence `[0, size)` — what `begin()`/`end()` span. -/
def elems (v : SimpleVector α) : List α := v.storage.take v.size

/-- The documented representation invariant: `0 <= size_ <= capacity_`, and the
buffer holds exactly `capacity_` slots. -/
def wellFormed (v : SimpleVector α) : Prop :=
  v.size ≤ v.capacity ∧ v.storage.length = v.capacity

instance (v : SimpleVector α) : Decidable (wellFormed v) :=
  inferInstanceAs (Decidable (_ ∧ _))

/-- Default constructor: `size_ = capacity_ = 0`, no allocation. -/
def defaultCtor : SimpleVector α := ⟨[], 0, 0⟩

/-- `SimpleVector(size, value)`: allocates `size` slots and fills all of them
with `value` (`std::fill(storage_.Get(), &storage_[size], value)`). -/
def sizedValue (size : Nat) (value : α) : SimpleVector α :=
  ⟨List.replicate size value, size, size⟩

/-- `SimpleVector(size)`: delegates to `SimpleVector(size, Type{})`. -/
def sizedDefault [Inhabited α] (size : Nat) : SimpleVector α :=
  sizedValue size default

/-- `SimpleVector(std::initializer_list)`: allocates `init.size()` slots and
copies the elements in order. -/
def ofInitList (init : List α) : SimpleVector α :=
  ⟨init, init.length, init.length⟩

/-- Copy constructor: allocates `other.size_` slots and copies the live range
`[other.begin(), other.end())`; `size_ = capacity_ = other.size_`. -/
def copyCtor (other : SimpleVector α) : SimpleVector α :=
  ⟨other.storage.take other.size, other.size, other.size⟩

/-- Move constructor, member initializers in declaration order:
`storage_(std::move(other.storage_))` takes the buffer and leaves `other`'s
buffer empty; `size_(std::exchange(other.size_, 0))` reads `other.size_` and
zeroes it; then `capacity_(std::exchange(other.size_, 0))` reads `other.size_`
AGAIN — which is already `0` — so the new vector's `capacity_` is `0` and
`other.capacity_` is never touched.  Returns (new vector, moved-from vector). -/
def moveCtor (other : SimpleVector α) : SimpleVector α × SimpleVector α :=
  (⟨other.storage, other.size, 0⟩, ⟨[], 0, other.capacity⟩)

/-- `At` (mutable and const overloads have the same logic): throws
`std::out_of_range("out_of_range")` when `index >= size_`, otherwise returns
`storage_[index]`.  Both overloads are const with respect to the vector's
state, so the vector is unchanged by the call. -/
def At [Inhabited α] (v : SimpleVector α) (index : Nat) : Except String α :=
  if index ≥ v.size then Except.error "out_of_range"
  else Except.ok (v.get index)

/-- `Clear`: `size_ = 0`; capacity and buffer untouched. -/
def Clear (v : SimpleVector α) : SimpleVector α := { v with size := 0 }

/-- `PopBack`: `--size_`; documented precondition `size_ > 0`. -/
def PopBack (v : SimpleVector α) : SimpleVector α := { v with size := v.size - 1 }

/-- `swap`: exchanges buffer, size and capacity of the two vectors. -/
def swap (a b : SimpleVector α) : SimpleVector α × SimpleVector α := (b, a)

/-- The capacity loop of `Resize`: `while (new_size > new_capacity)
new_capacity *= 2;`.  Call sites always pass `cap >= 1`; for `cap = 0` the C++
loop would not terminate, and the model returns `0` on that unreachable
input. -/
def growLoop (newSize cap : Nat) : Nat :=
  if h0 : cap = 0 then cap
  else if h1 : newSize > cap then growLoop newSize (cap * 2)
  else cap
termination_by newSize - cap
decreasing_by omega

/-- The private helper `FillWithDefault(first, last)`: assigns `Type{}` to
every slot of `[lo, hi)`.  For the in-range call sites (`lo ≤ hi ≤ length`)
this is the buffer with `[lo, hi)` replaced by default values. -/
def FillWithDefault [Inhabited α] (l : List α) (lo hi : Nat) : List α :=
  l.take lo ++ List.replicate (hi - lo) default ++ l.drop hi

/-- `Reserve(new_capacity)`: if `new_capacity > capacity_`, allocate
`new_capacity` default slots, move the live range into the front, swap buffers
and set `capacity_`; otherwise do nothing. -/
def Reserve [Inhabited α] (v : SimpleVector α) (newCapacity : Nat) : SimpleVector α :=
  if newCapacity > v.capacity then
    { storage := v.storage.take v.size ++ List.replicate (newCapacity - v.size) default
      size := v.size
      capacity := newCapacity }
  else v

/-- `SimpleVector(ReserveProxyObj)`: all members start at their default
initializers (`size_ = capacity_ = 0`, empty buffer), then the body calls
`Reserve(capacity_to_reserve.GetValue())`.  Unqualified lookup inside the
constructor body finds the member `SimpleVector::Reserve` (class scope hides
the free function `Reserve`), so this is the member call above. -/
def fromReserveProxy [Inhabited α] (p : ReserveProxyObj) : SimpleVector α :=
  Reserve defaultCtor p.value

/-- `Resize(new_size)`:
* `new_size > capacity_`: double a capacity starting at `capacity_` (or `1`
  from `0`) until it reaches `new_size`; allocate that many default slots,
  move the live range into the front, fill `[size_, new_capacity)` with
  defaults (already default in the fresh buffer), swap, set both counts;
* `size_ < new_size ≤ capacity_`: fill `[size_, new_size)` with defaults in
  place and set `size_`;
* otherwise just set `size_`. -/
def Resize [Inhabited α] (v : SimpleVector α) (newSize : Nat) : SimpleVector α :=
  if newSize > v.capacity then
    let newCapacity := growLoop newSize (if v.capacity = 0 then 1 else v.capacity)
    { storage := v.storage.take v.size ++ List.replicate (newCapacity - v.size) default
      size := newSize
      capacity := newCapacity }
  else if newSize > v.size then
    { v with storage := FillWithDefault v.storage v.size newSize, size := newSize }
  else
    { v with size := newSize }

/-- `Insert(pos, value)` at offset `pos = std::distance(begin(), pos)`; the
copy and move overloads differ only in copying versus moving `value` into the
slot, identical on the value level.
* `size_ == capacity_`: grow to `capacity_ == 0 ? 1 : capacity_ * 2`; into a
  fresh default-filled buffer move `[0, pos)`, put `value` at `pos`, move
  `[pos, size_)` to `[pos+1, size_+1)`; swap; `++size_`; set `capacity_`.
* else: `std::move_backward` shifts `[pos, size_)` one slot right in place and
  `value` goes to slot `pos`; `++size_`.
Returns the new state and the offset of the returned iterator
`&storage_[pos]`. -/
def Insert [Inhabited α] (v : SimpleVector α) (pos : Nat) (value : α) :
    SimpleVector α × Nat :=
  if v.size = v.capacity then
    let newCapacity := if v.capacity = 0 then 1 else v.capacity * 2
    ({ storage := v.storage.take pos ++ [value] ++ (v.storage.drop pos).take (v.size - pos)
         ++ List.replicate (newCapacity - v.size - 1) default
       size := v.size + 1
       capacity := newCapacity }, pos)
  else
    ({ storage := v.storage.take pos ++ [value] ++ (v.storage.drop pos).take (v.size - pos)
         ++ v.storage.drop (v.size + 1)
       size := v.size + 1
       capacity := v.capacity }, pos)

/-- `PushBack(item)` (both the copy and the move overload): the live code is
exactly `Insert(end(), item)`, i.e. insertion at offset `size_`. -/
def PushBack [Inhabited α] (v : SimpleVector α) (item : α) : SimpleVector α :=
  (Insert v v.size item).1

/-- `Erase(pos)`: `std::move(&storage_[pos+1], end(), &storage_[pos])` shifts
`[pos+1, size_)` one slot left; `--size_`; returns `&storage_[pos]`.  Slots
from `size_ - 1` on are not written (the last shifted-from slot keeps its
moved-from value). -/
def Erase (v : SimpleVector α) (pos : Nat) : SimpleVector α × Nat :=
  ({ v with
      storage := v.storage.take pos ++ (v.storage.drop (pos + 1)).take (v.size - 1 - pos)
        ++ v.storage.drop (v.size - 1)
      size := v.size - 1 }, pos)

/-- Copy assignment: guarded by `this != &rhs` (the `isSelf` flag); when the
operands are distinct objects, copy-and-swap replaces `self` by a copy of
`rhs`. -/
def opAssignCopy (self rhs : SimpleVector α) (isSelf : Bool) : SimpleVector α :=
  if isSelf then self else copyCtor rhs

/-- Move assignment, guarded by `this != &rhs`: when distinct, a temporary is
move-constructed from `rhs` and swapped into `self`.  Returns
(`self` afterwards, `rhs` afterwards). -/
def opAssignMove (self rhs : SimpleVector α) (isSelf : Bool) :
    SimpleVector α × SimpleVector α :=
  if isSelf then (self, rhs) else moveCtor rhs

end SimpleVector

namespace SimpleVector

variable {α : Type}

/-- C1: the claim states that move construction gives the new vector the size
and capacity the source had and leaves the source with `size = capacity = 0`.
At the concrete input `{5}` (size 1, capacity 1) the code instead produces a
new vector with `capacity_ = 0` and leaves the source with `capacity_ = 1`:
the second `std::exchange(other.size_, 0)` in the initializer list reads the
already-zeroed `size_` instead of `capacity_`. -/
theorem moveCtor_capacity_bug :
    moveCtor (ofInitList ([5] : List Nat)) =
      (⟨[5], 1, 0⟩, ⟨[], 0, 1⟩) ∧
    ¬ ((moveCtor (ofInitList ([5] : List Nat))).1.capacity = 1 ∧
       (moveCtor (ofInitList ([5] : List Nat))).2.capacity = 0) := by
  exact ⟨rfl, by decide⟩

/-- C2: the invariant `0 ≤ size ≤ capacity` is violated by a vector returned
by the move constructor: moving from `{5}` yields a vector with `size_ = 1`
and `capacity_ = 0`. -/
theorem moveCtor_breaks_invariant :
    ¬ ((moveCtor (ofInitList ([5] : List Nat))).1.size ≤
        (moveCtor (ofInitList ([5] : List Nat))).1.capacity) := by
  decide

/-- C9: copy construction yields `size = other.size`, `capacity = other.size`
(the source's size, not its capacity) and the same live element sequence; the
source operand is taken by const reference and is unchanged (the model
function does not touch it). -/
theorem copyCtor_spec (v : SimpleVector α) :
    (copyCtor v).size = v.size ∧
    (copyCtor v).capacity = v.size ∧
    elems (copyCtor v) = elems v := by
  refine ⟨rfl, rfl, ?_⟩
  simp [copyCtor, elems, List.take_take]

/-- C10: self-assignment — both `operator=` overloads are guarded by
`this != &rhs` and do nothing when source and target are the same object, so
buffer, size and capacity are all unchanged. -/
theorem selfAssign_id (v : SimpleVector α) :
    opAssignCopy v v true = v ∧ opAssignMove v v true = (v, v) :=
  ⟨rfl, rfl⟩

/-- C6: `PushBack` (either overload) is literally `Insert(end(), item)`, an
insertion at offset `size_`; the resulting state — buffer, size and capacity —
is identical. -/
theorem PushBack_eq_Insert_end [Inhabited α] (v : SimpleVector α) (x : α) :
    PushBack v x = (Insert v v.size x).1 := rfl

/-- C3: constructing from a reservation request carrying `c` leaves `size = 0`
and sets `capacity = c` (the member `Reserve` is called on the
default-initialized state; for `c = 0` the reserve is a no-op and the
capacity is already `0`). -/
theorem fromReserveProxy_spec [Inhabited α] (c : Nat) :
    (fromReserveProxy (α := α) ⟨c⟩).size = 0 ∧
    (fromReserveProxy (α := α) ⟨c⟩).capacity = c := by
  unfold fromReserveProxy Reserve defaultCtor
  by_cases h : c > 0
  · simp [h]
  · simp [h]
    omega

/-- C4: `At` fails with the out-of-range error exactly when `index ≥ size_`,
and on an in-range index returns the same element as the unchecked
`operator[]`; both overloads are const, so the vector is unchanged either
way. -/
theorem At_spec [Inhabited α] (v : SimpleVector α) (i : Nat) :
    (At v i = Except.error "out_of_range" ↔ v.size ≤ i) ∧
    (i < v.size → At v i = Except.ok (v.get i)) := by
  unfold At
  by_cases h : i ≥ v.size <;> simp [h]

/-- Witness for `At_spec`: on `{3, 4}`, index 1 is in range and agrees with
`operator[]`, index 2 fails with the out-of-range error. -/
theorem At_spec_witness :
    At (ofInitList ([3, 4] : List Nat)) 1 = Except.ok (get (ofInitList ([3, 4] : List Nat)) 1) ∧
    At (ofInitList ([3, 4] : List Nat)) 2 = Except.error "out_of_range" :=
  ⟨(At_spec (ofInitList [3, 4]) 1).2 (by decide),
   (At_spec (ofInitList [3, 4]) 2).1.mpr (by decide)⟩

/-- Both branches of `Insert` write the same first `size + 1` slots:
old `[0, pos)`, the value, old `[pos, size)`. -/
lemma take_insert_prefix_append [Inhabited α] (s : List α) (size pos : Nat) (value : α)
    (tail : List α) (hs : size ≤ s.length) (hp : pos ≤ size) :
    (s.take pos ++ [value] ++ (s.drop pos).take (size - pos) ++ tail).take (size + 1)
      = (s.take size).take pos ++ [value] ++ (s.take size).drop pos := by
  rw [List.take_left' (by simp [List.length_take, List.length_drop]; omega)]
  simp [List.take_take, Nat.min_eq_left hp, List.drop_take]

lemma Insert_snd [Inhabited α] (v : SimpleVector α) (pos : Nat) (value : α) :
    (Insert v pos value).2 = pos := by
  unfold Insert
  by_cases hc : v.size = v.capacity
  · rw [if_pos hc]
  · rw [if_neg hc]

lemma Insert_size [Inhabited α] (v : SimpleVector α) (pos : Nat) (value : α) :
    (Insert v pos value).1.size = v.size + 1 := by
  unfold Insert
  by_cases hc : v.size = v.capacity
  · rw [if_pos hc]
  · rw [if_neg hc]

lemma Insert_capacity [Inhabited α] (v : SimpleVector α) (pos : Nat) (value : α) :
    (Insert v pos value).1.capacity =
      (if v.size = v.capacity then (if v.capacity = 0 then 1 else v.capacity * 2)
       else v.capacity) := by
  unfold Insert
  by_cases hc : v.size = v.capacity
  · rw [if_pos hc, if_pos hc]
  · rw [if_neg hc, if_neg hc]

lemma Insert_elems [Inhabited α] (v : SimpleVector α) (pos : Nat) (value : α)
    (hs : v.size ≤ v.storage.length) (hp : pos ≤ v.size) :
    elems (Insert v pos value).1 = (elems v).take pos ++ [value] ++ (elems v).drop pos := by
  unfold Insert elems
  by_cases hc : v.size = v.capacity
  · rw [if_pos hc]
    exact take_insert_prefix_append v.storage v.size pos value _ hs hp
  · rw [if_neg hc]
    exact take_insert_prefix_append v.storage v.size pos value _ hs hp

lemma getD_append_exact [Inhabited α] (A X : List α) (n : Nat) (h : A.length = n) :
    (A ++ X).getD n default = X.getD 0 default := by
  rw [List.getD_append_right _ _ _ _ (le_of_eq h), h, Nat.sub_self]

lemma Insert_get [Inhabited α] (v : SimpleVector α) (pos : Nat) (value : α)
    (hs : v.size ≤ v.storage.length) (hp : pos ≤ v.size) :
    get (Insert v pos value).1 pos = value := by
  have hlen : (v.storage.take pos).length = pos := by
    simp [List.length_take]; omega
  unfold Insert get
  by_cases hc : v.size = v.capacity
  · rw [if_pos hc]
    dsimp only
    simp only [List.append_assoc]
    rw [getD_append_exact _ _ _ hlen]
    simp
  · rw [if_neg hc]
    dsimp only
    simp only [List.append_assoc]
    rw [getD_append_exact _ _ _ hlen]
    simp

/-- C5: for a well-formed vector and any offset `pos ≤ size`, `Insert`
returns the iterator offset `pos`, increments the size, produces the live
sequence with `value` placed at `pos` and the old elements from `pos` shifted
one slot right, stores `value` at the returned position, and changes the
capacity exactly when `size == capacity` held before — to `1` from `0`,
otherwise to `capacity * 2`. -/
theorem Insert_spec [Inhabited α] (v : SimpleVector α) (pos : Nat) (value : α)
    (hwf : wellFormed v) (hp : pos ≤ v.size) :
    (Insert v pos value).2 = pos ∧
    (Insert v pos value).1.size = v.size + 1 ∧
    elems (Insert v pos value).1 = (elems v).take pos ++ [value] ++ (elems v).drop pos ∧
    get (Insert v pos value).1 pos = value ∧
    (Insert v pos value).1.capacity =
      (if v.size = v.capacity then (if v.capacity = 0 then 1 else v.capacity * 2)
       else v.capacity) := by
  obtain ⟨hsc, hlen⟩ := hwf
  have hs : v.size ≤ v.storage.length := by omega
  exact ⟨Insert_snd v pos value, Insert_size v pos value,
    Insert_elems v pos value hs hp, Insert_get v pos value hs hp,
    Insert_capacity v pos value⟩

/-- Witness for `Insert_spec`: inserting `9` at offset 1 of `{1, 2, 3}`
(size 3, capacity 3) gives the sequence `[1, 9, 2, 3]`, size 4, capacity 6,
at the returned offset 1. -/
theorem Insert_spec_witness :
    elems (Insert (ofInitList ([1, 2, 3] : List Nat)) 1 9).1 = [1, 9, 2, 3] ∧
    (Insert (ofInitList ([1, 2, 3] : List Nat)) 1 9).1.size = 4 ∧
    (Insert (ofInitList ([1, 2, 3] : List Nat)) 1 9).1.capacity = 6 ∧
    (Insert (ofInitList ([1, 2, 3] : List Nat)) 1 9).2 = 1 := by
  have h := Insert_spec (ofInitList ([1, 2, 3] : List Nat)) 1 9 (by decide) (by decide)
  refine ⟨h.2.2.1.trans (by decide), h.2.1.trans (by decide), ?_, h.1⟩
  exact h.2.2.2.2.trans (by decide)

lemma Insert_size_le_length [Inhabited α] (v : SimpleVector α) (pos : Nat) (value : α)
    (hs : v.size ≤ v.storage.length) (hp : pos ≤ v.size) :
    (Insert v pos value).1.size ≤ (Insert v pos value).1.storage.length := by
  unfold Insert
  by_cases hc : v.size = v.capacity
  · rw [if_pos hc]
    dsimp only
    simp only [List.length_append, List.length_take, List.length_drop,
      List.length_replicate, List.length_singleton]
    omega
  · rw [if_neg hc]
    dsimp only
    simp only [List.length_append, List.length_take, List.length_drop,
      List.length_replicate, List.length_singleton]
    omega

lemma Erase_spec_elems (w : SimpleVector α) (pos : Nat)
    (hs : w.size ≤ w.storage.length) (hp : pos < w.size) :
    (Erase w pos).1.size = w.size - 1 ∧
    elems (Erase w pos).1 = (elems w).take pos ++ (elems w).drop (pos + 1) := by
  refine ⟨rfl, ?_⟩
  unfold Erase elems
  dsimp only
  rw [List.take_left' (by simp [List.length_take, List.length_drop]; omega)]
  rw [List.take_take, Nat.min_eq_left (le_of_lt hp), List.drop_take]
  have h1 : w.size - 1 - pos = w.size - (pos + 1) := by omega
  rw [h1]

lemma take_append_drop_insert (E : List α) (x : α) (pos : Nat) (h : pos ≤ E.length) :
    (E.take pos ++ [x] ++ E.drop pos).take pos ++
      (E.take pos ++ [x] ++ E.drop pos).drop (pos + 1) = E := by
  have hA : (E.take pos).length = pos := by simp [List.length_take]; omega
  have h1 : (E.take pos ++ [x]).length = pos + 1 := by simp [hA]
  rw [List.drop_left' h1,
    List.take_append_of_le_length (by rw [h1]; omega),
    List.take_append_of_le_length (le_of_eq hA.symm),
    List.take_take, Nat.min_self,
    List.take_append_drop]

/-- C7: inserting `value` at any offset `pos ≤ size` of a well-formed vector
and then erasing at the returned iterator restores the original size and live
element sequence. -/
theorem Erase_Insert_roundtrip [Inhabited α] (v : SimpleVector α) (pos : Nat) (value : α)
    (hwf : wellFormed v) (hp : pos ≤ v.size) :
    (Erase (Insert v pos value).1 (Insert v pos value).2).1.size = v.size ∧
    elems (Erase (Insert v pos value).1 (Insert v pos value).2).1 = elems v := by
  obtain ⟨hsc, hlen⟩ := hwf
  have hs : v.size ≤ v.storage.length := by omega
  have hElen : pos ≤ (elems v).length := by
    simp [elems, List.length_take]; omega
  have hs' := Insert_size_le_length v pos value hs hp
  have hp' : (Insert v pos value).2 < (Insert v pos value).1.size := by
    rw [Insert_snd, Insert_size]; omega
  obtain ⟨hsz, helems⟩ := Erase_spec_elems (Insert v pos value).1 (Insert v pos value).2 hs' hp'
  refine ⟨?_, ?_⟩
  · rw [hsz, Insert_size]
    omega
  · rw [helems, Insert_snd, Insert_elems v pos value hs hp]
    exact take_append_drop_insert (elems v) value pos hElen

/-- Witness for `Erase_Insert_roundtrip`: on `{1, 2, 3}` with offset 1 and
value 9, the insert-then-erase round trip restores size 3 and `[1, 2, 3]`. -/
theorem Erase_Insert_roundtrip_witness :
    (Erase (Insert (ofInitList ([1, 2, 3] : List Nat)) 1 9).1
      (Insert (ofInitList ([1, 2, 3] : List Nat)) 1 9).2).1.size = 3 ∧
    elems (Erase (Insert (ofInitList ([1, 2, 3] : List Nat)) 1 9).1
      (Insert (ofInitList ([1, 2, 3] : List Nat)) 1 9).2).1 = [1, 2, 3] := by
  have h := Erase_Insert_roundtrip (ofInitList ([1, 2, 3] : List Nat)) 1 9 (by decide) (by decide)
  exact ⟨h.1.trans (by decide), h.2.trans (by decide)⟩

theorem growLoop_spec (n c : Nat) (hc : 0 < c) :
    n ≤ growLoop n c ∧ ∃ k, growLoop n c = c * 2 ^ k ∧ ∀ j < k, c * 2 ^ j < n := by
  by_cases h1 : n > c
  · have ih := growLoop_spec n (c * 2) (by omega)
    rw [growLoop]
    simp only [dif_neg (by omega : ¬ c = 0), dif_pos h1]
    obtain ⟨hle, k, hk, hmin⟩ := ih
    refine ⟨hle, k + 1, by rw [hk]; ring, ?_⟩
    intro j hj
    cases j with
    | zero => simpa using h1
    | succ j' =>
      have hj' := hmin j' (by omega)
      calc c * 2 ^ (j' + 1) = c * 2 * 2 ^ j' := by ring
        _ < n := hj'
  · rw [growLoop]
    simp only [dif_neg (by omega : ¬ c = 0), dif_neg h1]
    exact ⟨by omega, 0, by simp, by omega⟩
termination_by n - c
decreasing_by omega

/-- C8: `Resize(n)` on a well-formed vector:
* `n ≤ size`: the result is the same vector with only `size_` set to `n`
  (buffer and capacity untouched);
* `size < n ≤ capacity`: no reallocation — capacity and buffer length are
  unchanged, the slack past `n` is untouched, the live sequence is the old one
  extended by default values, and `size_ = n`;
* `n > capacity`: `size_ = n` and the new capacity is reached from
  `capacity_` (or `1` when it was `0`) by the least number of doublings that
  makes it at least `n`; the buffer holds the old live elements followed by
  default values up to the new capacity, so the live sequence is the old one
  extended by defaults. -/
theorem Resize_spec [Inhabited α] (v : SimpleVector α) (n : Nat) (hwf : wellFormed v) :
    (n ≤ v.size → Resize v n = { v with size := n }) ∧
    (v.size < n → n ≤ v.capacity →
      (Resize v n).capacity = v.capacity ∧
      (Resize v n).size = n ∧
      (Resize v n).storage.length = v.storage.length ∧
      elems (Resize v n) = elems v ++ List.replicate (n - v.size) default ∧
      (Resize v n).storage.drop n = v.storage.drop n) ∧
    (v.capacity < n →
      (Resize v n).size = n ∧
      n ≤ (Resize v n).capacity ∧
      (∃ k, (Resize v n).capacity = (if v.capacity = 0 then 1 else v.capacity) * 2 ^ k ∧
        ∀ j < k, (if v.capacity = 0 then 1 else v.capacity) * 2 ^ j < n) ∧
      (Resize v n).storage =
        elems v ++ List.replicate ((Resize v n).capacity - v.size) default ∧
      elems (Resize v n) = elems v ++ List.replicate (n - v.size) default) := by
  obtain ⟨hsc, hlen⟩ := hwf
  refine ⟨?_, ?_, ?_⟩
  · intro h1
    unfold Resize
    rw [if_neg (by omega), if_neg (by omega)]
  · intro h1 h2
    unfold Resize
    rw [if_neg (by omega), if_pos (by omega)]
    unfold FillWithDefault elems
    dsimp only
    refine ⟨rfl, rfl, ?_, ?_, ?_⟩
    · simp only [List.length_append, List.length_take, List.length_drop,
        List.length_replicate]
      omega
    · rw [List.take_left' (by simp [List.length_take]; omega)]
    · rw [List.drop_left' (by simp [List.length_take, List.length_replicate]; omega)]
  · intro h1
    have hstart : 0 < (if v.capacity = 0 then 1 else v.capacity) := by
      by_cases h0 : v.capacity = 0 <;> simp [h0]
      omega
    obtain ⟨hge, k, hk, hmin⟩ :=
      growLoop_spec n (if v.capacity = 0 then 1 else v.capacity) hstart
    unfold Resize
    rw [if_pos (by omega)]
    unfold elems
    dsimp only
    refine ⟨rfl, hge, ⟨k, hk, hmin⟩, rfl, ?_⟩
    rw [List.take_append_eq_append_take, List.take_take,
      Nat.min_eq_right (by omega), List.length_take,
      Nat.min_eq_left (by omega), List.take_replicate,
      Nat.min_eq_left (by omega)]

/-- Witness for `Resize_spec`, one concrete input per case: shrinking `{1, 2}`
to 1 only changes the size; growing a size-1 capacity-2 vector to 2 fills in
place giving `[1, 0]`; growing `{1, 2}` to 5 sets size 5 and a capacity of at
least 5. -/
theorem Resize_spec_witness :
    Resize (ofInitList ([1, 2] : List Nat)) 1 = { ofInitList ([1, 2] : List Nat) with size := 1 } ∧
    elems (Resize (⟨[1, 2], 1, 2⟩ : SimpleVector Nat) 2) = [1, 0] ∧
    (Resize (ofInitList ([1, 2] : List Nat)) 5).size = 5 ∧
    5 ≤ (Resize (ofInitList ([1, 2] : List Nat)) 5).capacity := by
  have h1 := (Resize_spec (ofInitList ([1, 2] : List Nat)) 1 (by decide)).1 (by decide)
  have h2 := ((Resize_spec (⟨[1, 2], 1, 2⟩ : SimpleVector Nat) 2 (by decide)).2.1
    (by decide) (by decide)).2.2.2.1
  have h3 := (Resize_spec (ofInitList ([1, 2] : List Nat)) 5 (by decide)).2.2 (by decide)
  exact ⟨h1, h2.trans (by decide), h3.1, h3.2.1⟩

end SimpleVector
